import Mathlib

/-!
Verification development for `tools/coverage-report.py`: a shallow embedding
of the coverage-report post-processor (parser, aggregation, sorting, and the
`main` orchestration) together with theorems settling the specification
claims.

Modelling conventions:

* A text line is a `List Char`; a file's contents is a `List (List Char)`
  (the lines yielded by iterating over the file, without trailing newlines —
  the code strips each line anyway).
* Python `float` values are idealised as exact rationals (`ℚ`); `float()` and
  `int()` are modelled on the finite decimal-literal grammar (optional sign,
  digits, decimal point, exponent); `inf`/`nan` and digit-group underscores
  are not modelled, since no claim depends on them.
* Python exceptions are modelled with `Except PyErr`: `float()`/`int()`
  return `.error .valueError` where CPython raises `ValueError`, and the
  `try`/`except` blocks of the source appear as `match` arms on that result.
* `round(x, 1)` is modelled as round-half-to-even on the exact rational.
* The filesystem effects of `main` are modelled as a pure function over an
  association-list filesystem, producing an explicit trace of write/copy/
  remove events plus exit code, stdout and stderr.
-/

namespace CoverageTool

/-- Python `str.strip()`: remove leading and trailing whitespace. -/
def pyStrip (l : List Char) : List Char :=
  ((l.dropWhile Char.isWhitespace).reverse.dropWhile Char.isWhitespace).reverse

/-- Helper for `pySplitWs`: accumulates the current (reversed) token. -/
def pySplitWsAux : List Char → List Char → List (List Char)
  | [], acc => if acc.isEmpty then [] else [acc.reverse]
  | c :: rest, acc =>
    if c.isWhitespace then
      if acc.isEmpty then pySplitWsAux rest [] else acc.reverse :: pySplitWsAux rest []
    else pySplitWsAux rest (c :: acc)

/-- Python `str.split()` with no argument: split on runs of whitespace,
discarding empty tokens. -/
def pySplitWs (l : List Char) : List (List Char) := pySplitWsAux l []

/-- Python `line.split(' | ')`: split on each non-overlapping, leftmost
occurrence of the three-character separator space-pipe-space. -/
def splitPipe : List Char → List (List Char)
  | [] => [[]]
  | ' ' :: '|' :: ' ' :: rest => [] :: splitPipe rest
  | c :: rest =>
    match splitPipe rest with
    | [] => [[c]]
    | s :: ss => (c :: s) :: ss

/-- Whether the three-character separator space-pipe-space occurs anywhere
in the line (as a contiguous subsequence). -/
def containsSep : List Char → Bool
  | ' ' :: '|' :: ' ' :: _ => true
  | _ :: rest => containsSep rest
  | [] => false

/-- Value of a list of decimal digits, most significant first. -/
def digitsVal (ds : List Char) : ℕ :=
  ds.foldl (fun a c => a * 10 + (c.toNat - '0'.toNat)) 0

/-- A non-empty all-digit string, or `none`. -/
def decDigits? (ds : List Char) : Option ℕ :=
  if ds.isEmpty then none
  else if ds.all Char.isDigit then some (digitsVal ds) else none

/-- Python `int(token)` on an already-stripped token: optional sign followed
by decimal digits. Returns `none` where CPython raises `ValueError`. -/
def pyIntCore : List Char → Option ℤ
  | '+' :: ds => (decDigits? ds).map Int.ofNat
  | '-' :: ds => (decDigits? ds).map (fun n => -(n : ℤ))
  | ds => (decDigits? ds).map Int.ofNat

/-- Mantissa of a Python float literal: `digits`, `digits.`, `.digits` or
`digits.digits`. -/
def pyMantissa? (l : List Char) : Option ℚ :=
  let ip := l.takeWhile Char.isDigit
  match l.dropWhile Char.isDigit with
  | [] => if ip.isEmpty then none else some (digitsVal ip)
  | '.' :: fp =>
    if fp.all Char.isDigit && !(ip.isEmpty && fp.isEmpty) then
      some ((digitsVal ip : ℚ) + (digitsVal fp : ℚ) / (10 : ℚ) ^ fp.length)
    else none
  | _ => none

/-- Exponent part of a Python float literal: optional sign plus digits. -/
def pyExp? : List Char → Option ℤ
  | '+' :: ds => (decDigits? ds).map Int.ofNat
  | '-' :: ds => (decDigits? ds).map (fun n => -(n : ℤ))
  | ds => (decDigits? ds).map Int.ofNat

/-- Unsigned Python float literal: mantissa with optional `e`/`E` exponent. -/
def pyFloatMag? (l : List Char) : Option ℚ :=
  let mant := l.takeWhile (fun c => !(c == 'e' || c == 'E'))
  match l.dropWhile (fun c => !(c == 'e' || c == 'E')) with
  | [] => pyMantissa? mant
  | _ :: ex =>
    match pyMantissa? mant, pyExp? ex with
    | some m, some e => some (m * (10 : ℚ) ^ e)
    | _, _ => none

/-- Python `float(s)` on an already-stripped string, idealised to exact
rationals over the finite decimal grammar. Returns `none` where CPython
raises `ValueError`. -/
def pyFloatCore (l : List Char) : Option ℚ :=
  match l with
  | '+' :: rest => pyFloatMag? rest
  | '-' :: rest => (pyFloatMag? rest).map Neg.neg
  | _ => pyFloatMag? l

/-- The Python exception kinds caught by the source
(`except ValueError`, `except (ValueError, IndexError)`). -/
inductive PyErr
  | valueError
  | indexError
deriving DecidableEq

/-- `float()` as a fallible call: raises `ValueError` on a bad literal. -/
def pyFloatExc (l : List Char) : Except PyErr ℚ :=
  match pyFloatCore l with
  | some q => .ok q
  | none => .error .valueError

/-- `int()` as a fallible call: raises `ValueError` on a bad literal. -/
def pyIntExc (l : List Char) : Except PyErr ℤ :=
  match pyIntCore l with
  | some n => .ok n
  | none => .error .valueError

/-- One `{"line": ..., "hits": ...}` entry of `hit_pairs`. -/
structure HitPair where
  line : ℤ
  hits : ℤ
deriving DecidableEq

/-- One module record appended to `modules` in `parse_report_txt`. -/
structure Module where
  module : List Char
  coverage : ℚ
  totalLines : ℕ
  coveredLines : ℕ
deriving DecidableEq

/-- The index pattern `for i in range(0, len(tokens) - 1, 2)` with accesses
`tokens[i]`, `tokens[i + 1]`: fixed consecutive pairs, a trailing unpaired
token is dropped. -/
def pairUp : List (List Char) → List (List Char × List Char)
  | a :: b :: rest => (a, b) :: pairUp rest
  | _ => []

/-- Body of the inner `try`: `int(tokens[i])`, `int(tokens[i + 1])`; the
`except (ValueError, IndexError): pass` arm catches every error either call
can raise, so a failed pair is dropped. -/
def parsePair? (a b : List Char) : Option HitPair :=
  match pyIntExc a with
  | .error _ => none
  | .ok ln =>
    match pyIntExc b with
    | .error _ => none
    | .ok h => some ⟨ln, h⟩

/-- Hit pairs contributed by one pipe-delimited segment:
`tokens = segment.strip().split()` then the indexed pair loop. -/
def segPairs (seg : List Char) : List HitPair :=
  (pairUp (pySplitWs (pyStrip seg))).filterMap (fun p => parsePair? p.1 p.2)

/-- `hit_pairs` for one data line: the per-segment pair lists of
`parts[2:]`, concatenated in segment order. -/
def lineHitPairs (segs : List (List Char)) : List HitPair :=
  (segs.map segPairs).flatten

/-- The header marker `'RaCoCo'`. -/
def headerRaCoCo : List Char := "RaCoCo".toList

/-- The header marker `'Filename'`. -/
def headerFilename : List Char := "Filename".toList

/-- The per-line body of the loop in `parse_report_txt`: `some` module
record, or `none` where the source executes `continue`. -/
def parseLine? (raw : List Char) : Option Module :=
  let line := pyStrip raw
  if line.isEmpty || headerRaCoCo.isPrefixOf line || headerFilename.isPrefixOf line then
    none
  else
    match splitPipe line with
    | filename :: covField :: seg :: segs =>
      match pyFloatExc (pyStrip (covField.filter (fun c => c != '%'))) with
      | .error _ => none
      | .ok coverage =>
        let pairs := lineHitPairs (seg :: segs)
        some { module := filename, coverage := coverage,
               totalLines := pairs.length,
               coveredLines := (pairs.filter (fun p => decide (0 < p.hits))).length }
    | _ => none

/-- Insert a module in front of the first element whose coverage it is
greater than or equal to. -/
def insertDesc (m : Module) : List Module → List Module
  | [] => [m]
  | x :: xs => if x.coverage ≤ m.coverage then m :: x :: xs else x :: insertDesc m xs

/-- Model of `sorted(modules, key=lambda m: -m["coverage"])`: CPython's sort
is stable, and a stable sort is extensionally unique, so insertion sort that
keeps earlier-input elements in front of equal-coverage later ones is the
same function. -/
def sortCovDesc : List Module → List Module
  | [] => []
  | m :: ms => insertDesc m (sortCovDesc ms)

/-- The aggregate dictionary returned by `parse_report_txt`
(`generatedAt` is attached later, in `main`). -/
structure CoverageReport where
  totalCoverage : ℚ
  totalLines : ℕ
  coveredLines : ℕ
  modules : List Module
deriving DecidableEq

/-- Round-half-to-even to an integer, the rounding CPython's `round` uses
(idealised to exact rationals). -/
def roundHalfEven (q : ℚ) : ℤ :=
  let f := q.floor
  if q - (f : ℚ) < 1 / 2 then f
  else if (1 : ℚ) / 2 < q - (f : ℚ) then f + 1
  else if f % 2 = 0 then f else f + 1

/-- `round(x, 1)`. -/
def round1 (q : ℚ) : ℚ := (roundHalfEven (q * 10) : ℚ) / 10

/-- The `modules` list accumulated by the line loop, in input order. -/
def parseModules (lines : List (List Char)) : List Module :=
  lines.filterMap parseLine?

/-- `parse_report_txt`, given the input file's lines. -/
def parseReportTxt (lines : List (List Char)) : CoverageReport :=
  let ms := parseModules lines
  let total := (ms.map Module.totalLines).sum
  let covered := (ms.map Module.coveredLines).sum
  { totalCoverage :=
      if 0 < total then round1 ((covered : ℚ) / (total : ℚ) * 100) else 0,
    totalLines := total,
    coveredLines := covered,
    modules := sortCovDesc ms }

/-- The per-line loop body with the exception flow explicit: the result is
`.error e` exactly where an exception would escape the body. The
`except ValueError: continue` around `float()` appears as the
`.error .valueError => .ok none` arm; any other exception kind there would
propagate. The inner pair loop's `except (ValueError, IndexError)` catches
everything `int()` can raise and is already total (`parsePair?`). -/
def parseLineExc (raw : List Char) : Except PyErr (Option Module) :=
  let line := pyStrip raw
  if line.isEmpty || headerRaCoCo.isPrefixOf line || headerFilename.isPrefixOf line then
    .ok none
  else
    match splitPipe line with
    | filename :: covField :: seg :: segs =>
      match pyFloatExc (pyStrip (covField.filter (fun c => c != '%'))) with
      | .error .valueError => .ok none
      | .error e => .error e
      | .ok coverage =>
        let pairs := lineHitPairs (seg :: segs)
        .ok (some { module := filename, coverage := coverage,
                    totalLines := pairs.length,
                    coveredLines := (pairs.filter (fun p => decide (0 < p.hits))).length })
    | _ => .ok none

/-- The whole line loop with the exception flow explicit: an `.error` from
any line would abort the loop and propagate. -/
def parseModulesExc : List (List Char) → Except PyErr (List Module)
  | [] => .ok []
  | raw :: rest =>
    match parseLineExc raw with
    | .error e => .error e
    | .ok none => parseModulesExc rest
    | .ok (some m) =>
      match parseModulesExc rest with
      | .error e => .error e
      | .ok ms => .ok (m :: ms)

/-- `parse_report_txt` with the exception flow explicit. -/
def parseReportTxtExc (lines : List (List Char)) : Except PyErr CoverageReport :=
  match parseModulesExc lines with
  | .error e => .error e
  | .ok ms =>
    let total := (ms.map Module.totalLines).sum
    let covered := (ms.map Module.coveredLines).sum
    .ok { totalCoverage :=
            if 0 < total then round1 ((covered : ℚ) / (total : ℚ) * 100) else 0,
          totalLines := total,
          coveredLines := covered,
          modules := sortCovDesc ms }

/-- Modelled from the spec's words for claim C2 (refinement comparison, not
from the source): "all subsequent pipe-delimited segments, when
whitespace-tokenized and concatenated, form a sequence of pairs", with the
token stream "consumed two at a time". -/
def lineHitPairsSpecStream (segs : List (List Char)) : List HitPair :=
  (pairUp ((segs.map (fun s => pySplitWs (pyStrip s))).flatten)).filterMap
    (fun p => parsePair? p.1 p.2)

/-- Direct "consume two tokens at a time, drop a failed pair and continue
with the next candidate pair" recursion, used to state the amended C2. -/
def consumePairs : List (List Char) → List HitPair
  | a :: b :: rest =>
    (match parsePair? a b with
     | some p => p :: consumePairs rest
     | none => consumePairs rest)
  | _ => []

/-! ## Model of `main`: filesystem, effect trace, stdout/stderr -/

/-- Contents of a file in the model filesystem.  The JSON and Markdown
renderers serialize the in-memory report; their exact byte output is not
needed by any claim, so a written file is tagged with the document it
serializes. -/
inductive FileData
  | text (lines : List (List Char))
  | jsonDoc (report : CoverageReport) (generatedAt : List Char)
  | mdDoc (report : CoverageReport)
deriving DecidableEq

/-- A filesystem: association list from path to contents. -/
structure FS where
  entries : List (String × FileData)
deriving DecidableEq

/-- Look a path up. -/
def FS.lookup (fs : FS) (p : String) : Option FileData :=
  (fs.entries.find? (fun e => e.1 == p)).map Prod.snd

/-- `os.path.exists`. -/
def FS.pathExists (fs : FS) (p : String) : Bool :=
  (fs.lookup p).isSome

/-- `open(p, 'w')` + write: create or overwrite. -/
def FS.write (fs : FS) (p : String) (d : FileData) : FS :=
  ⟨(p, d) :: fs.entries.filter (fun e => e.1 != p)⟩

/-- `os.remove`. -/
def FS.remove (fs : FS) (p : String) : FS :=
  ⟨fs.entries.filter (fun e => e.1 != p)⟩

/-- Reading the lines of a text file (`for line in f`); only ever applied to
the textual report. -/
def FS.readLines (fs : FS) (p : String) : List (List Char) :=
  match fs.lookup p with
  | some (.text ls) => ls
  | _ => []

/-- `shutil.copy2`: duplicate contents (metadata is outside the model). -/
def FS.copy (fs : FS) (src dst : String) : FS :=
  match fs.lookup src with
  | some d => fs.write dst d
  | none => fs

/-- One destructive/creative filesystem action of `main`, in program order. -/
inductive Event
  | writeFile (path : String)
  | copyFile (src dst : String)
  | removeFile (path : String)
deriving DecidableEq

/-- One line printed to standard output by `main`. -/
inductive OutLine
  | coverageLine (pct : ℚ)
  | generatedLine (path : String)
deriving DecidableEq

/-- Observable outcome of one run of `main`. -/
structure MainResult where
  exitCode : ℕ
  fs : FS
  events : List Event
  stdout : List OutLine
  stderr : List String
deriving DecidableEq

/-- `main`, parametrised by the already-resolved coverage directory, the
timestamp token `YYYY-MM-DD-hhmm` and the ISO timestamp (clock reads are
outside the model), acting on a model filesystem. -/
def runMain (dir timestamp isoNow : String) (fs : FS) : MainResult :=
  let reportTxt := dir ++ "/report.txt"
  let reportHtml := dir ++ "/report.html"
  if fs.pathExists reportTxt then
    let data := parseReportTxt (fs.readLines reportTxt)
    let base := dir ++ "/coverage-report-" ++ timestamp
    let jsonPath := base ++ ".json"
    let mdPath := base ++ ".md"
    let htmlPath := base ++ ".html"
    let fs1 := fs.write jsonPath (.jsonDoc data isoNow.toList)
    let fs2 := fs1.write mdPath (.mdDoc data)
    let fs3 :=
      if fs2.pathExists reportHtml then (fs2.copy reportHtml htmlPath).remove reportHtml
      else fs2
    let htmlEvents :=
      if fs2.pathExists reportHtml then
        [Event.copyFile reportHtml htmlPath, Event.removeFile reportHtml]
      else []
    let fs4 := fs3.remove reportTxt
    { exitCode := 0,
      fs := fs4,
      events := [Event.writeFile jsonPath, Event.writeFile mdPath] ++ htmlEvents
                ++ [Event.removeFile reportTxt],
      stdout := [OutLine.coverageLine data.totalCoverage,
                 OutLine.generatedLine jsonPath, OutLine.generatedLine mdPath]
                ++ (if fs4.pathExists htmlPath then [OutLine.generatedLine htmlPath] else []),
      stderr := [] }
  else
    { exitCode := 1, fs := fs, events := [], stdout := [],
      stderr := ["Error: " ++ reportTxt ++ " not found"] }

/-! ## Helper lemmas -/

theorem insertDesc_perm (m : Module) (l : List Module) :
    (insertDesc m l).Perm (m :: l) := by
  induction l with
  | nil => simp [insertDesc]
  | cons x xs ih =>
    by_cases h : x.coverage ≤ m.coverage
    · simp [insertDesc, h]
    · simp only [insertDesc, if_neg h]
      exact (ih.cons x).trans (List.Perm.swap m x xs)

theorem sortCovDesc_perm (l : List Module) : (sortCovDesc l).Perm l := by
  induction l with
  | nil => simp [sortCovDesc]
  | cons m ms ih => exact (insertDesc_perm m (sortCovDesc ms)).trans (ih.cons m)

theorem pairwise_insertDesc (m : Module) (l : List Module)
    (h : l.Pairwise (fun a b => b.coverage ≤ a.coverage)) :
    (insertDesc m l).Pairwise (fun a b => b.coverage ≤ a.coverage) := by
  induction l with
  | nil => simp [insertDesc]
  | cons x xs ih =>
    rcases List.pairwise_cons.mp h with ⟨hx, hxs⟩
    by_cases hc : x.coverage ≤ m.coverage
    · simp only [insertDesc, if_pos hc]
      refine List.pairwise_cons.mpr ⟨?_, h⟩
      intro b hb
      rcases List.mem_cons.mp hb with hbx | hb
      · exact hbx ▸ hc
      · exact (hx b hb).trans hc
    · simp only [insertDesc, if_neg hc]
      refine List.pairwise_cons.mpr ⟨?_, ih hxs⟩
      intro b hb
      rcases List.mem_cons.mp ((insertDesc_perm m xs).mem_iff.mp hb) with hbm | hb
      · exact hbm ▸ le_of_lt (lt_of_not_le hc)
      · exact hx b hb

theorem sortCovDesc_pairwise (l : List Module) :
    (sortCovDesc l).Pairwise (fun a b => b.coverage ≤ a.coverage) := by
  induction l with
  | nil => simp [sortCovDesc]
  | cons m ms ih => exact pairwise_insertDesc m (sortCovDesc ms) ih

theorem filter_insertDesc (m : Module) (l : List Module) (c : ℚ) :
    (insertDesc m l).filter (fun x => decide (x.coverage = c)) =
      if m.coverage = c then m :: l.filter (fun x => decide (x.coverage = c))
      else l.filter (fun x => decide (x.coverage = c)) := by
  induction l with
  | nil => by_cases h : m.coverage = c <;> simp [insertDesc, h]
  | cons x xs ih =>
    simp only [insertDesc]
    by_cases hc : x.coverage ≤ m.coverage
    · rw [if_pos hc]
      by_cases hm : m.coverage = c <;> by_cases hx : x.coverage = c <;>
        simp [List.filter_cons, hm, hx]
    · rw [if_neg hc]
      have hxm : m.coverage < x.coverage := lt_of_not_le hc
      by_cases hm : m.coverage = c
      · have hx : ¬(x.coverage = c) := by
          rw [← hm]; exact ne_of_gt hxm
        simp [List.filter_cons, hx, hm, ih]
      · by_cases hx : x.coverage = c <;>
          simp [List.filter_cons, hx, hm, ih]

theorem sortCovDesc_filter (l : List Module) (c : ℚ) :
    (sortCovDesc l).filter (fun x => decide (x.coverage = c)) =
      l.filter (fun x => decide (x.coverage = c)) := by
  induction l with
  | nil => rfl
  | cons m ms ih =>
    rw [sortCovDesc, filter_insertDesc]
    by_cases hm : m.coverage = c <;> simp [List.filter_cons, hm, ih]

theorem consumePairs_eq (ts : List (List Char)) :
    consumePairs ts = (pairUp ts).filterMap (fun p => parsePair? p.1 p.2) := by
  match ts with
  | [] => rfl
  | [a] => rfl
  | a :: b :: rest =>
    have ih := consumePairs_eq rest
    simp only [consumePairs, pairUp, List.filterMap_cons]
    cases h : parsePair? a b <;> simp [h, ih]

theorem segPairs_eq_consume (s : List Char) :
    consumePairs (pySplitWs (pyStrip s)) = segPairs s := by
  rw [consumePairs_eq, segPairs]

theorem lineHitPairs_consume (segs : List (List Char)) :
    (segs.map (fun s => consumePairs (pySplitWs (pyStrip s)))).flatten =
      lineHitPairs segs := by
  rw [lineHitPairs]
  congr 1
  exact List.map_congr_left (fun s _ => segPairs_eq_consume s)

theorem containsSep_cons (c : Char) (rest : List Char)
    (hne : ∀ tail : List Char, c = ' ' → rest = '|' :: ' ' :: tail → False) :
    containsSep (c :: rest) = containsSep rest := by
  rw [containsSep.eq_def]
  split
  · rename_i tail heq
    rw [List.cons.injEq] at heq
    rcases heq with ⟨hc, hr⟩
    exact (hne tail hc hr).elim
  · rename_i heq
    rw [List.cons.injEq] at heq
    rw [heq.2]
  · rename_i heq
    simp at heq

theorem splitPipe_of_not_containsSep (l : List Char) :
    containsSep l = false → splitPipe l = [l] := by
  induction l using splitPipe.induct with
  | case1 => intro _; rfl
  | case2 rest ih =>
    intro h
    rw [containsSep] at h
    cases h
  | case3 c rest hne hsp ih =>
    intro h
    rw [containsSep_cons c rest (fun tail hc hr => hne tail hc hr)] at h
    rw [ih h] at hsp
    cases hsp
  | case4 c rest hne s ss hsp ih =>
    intro h
    rw [containsSep_cons c rest (fun tail hc hr => hne tail hc hr)] at h
    have hrest := ih h
    rw [splitPipe.eq_def]
    split
    · rename_i heq
      cases heq
    · rename_i r2 heq
      rw [List.cons.injEq] at heq
      exact (hne r2 heq.1 heq.2).elim
    · rename_i c' rest' hne' heq
      rw [List.cons.injEq] at heq
      rw [← heq.2, hrest, ← heq.1]

theorem pyFloatExc_not_index (l : List Char) :
    pyFloatExc l ≠ .error .indexError := by
  unfold pyFloatExc
  split <;> simp

theorem parseLineExc_ok (raw : List Char) :
    parseLineExc raw = .ok (parseLine? raw) := by
  simp only [parseLineExc, parseLine?]
  split
  · rfl
  · split
    · rename_i fname cov sg sgs heq
      cases hf : pyFloatExc (pyStrip (List.filter (fun ch => ch != '%') cov)) with
      | error e =>
        cases e
        · rfl
        · exact absurd hf (pyFloatExc_not_index _)
      | ok q => rfl
    · rfl

theorem parseModulesExc_ok (lines : List (List Char)) :
    parseModulesExc lines = .ok (parseModules lines) := by
  induction lines with
  | nil => rfl
  | cons raw rest ih =>
    rw [parseModulesExc, parseLineExc_ok raw]
    cases hp : parseLine? raw with
    | none => simp [parseModules, List.filterMap_cons, hp, ih]
    | some m => simp [parseModules, List.filterMap_cons, hp, ih]

theorem parseReportTxtExc_ok (lines : List (List Char)) :
    parseReportTxtExc lines = .ok (parseReportTxt lines) := by
  rw [parseReportTxtExc, parseModulesExc_ok, parseReportTxt]

theorem parseLine?_covered_le (raw : List Char) (m : Module)
    (h : parseLine? raw = some m) : m.coveredLines ≤ m.totalLines := by
  simp only [parseLine?] at h
  split at h
  · simp at h
  · split at h
    · split at h
      · simp at h
      · rw [Option.some.injEq] at h
        subst h
        exact List.length_filter_le _ _
    · simp at h

theorem parseLine?_of_short (raw : List Char)
    (h : (splitPipe (pyStrip raw)).length < 3) : parseLine? raw = none := by
  simp only [parseLine?]
  split
  · rfl
  · split
    · rename_i fname cov sg sgs heq
      rw [heq] at h
      simp at h
      omega
    · rfl



theorem parseLine?_of_bad_percentage (raw f c : List Char) (rest : List (List Char))
    (h2 : splitPipe (pyStrip raw) = f :: c :: rest)
    (h3 : pyFloatCore (pyStrip (c.filter (fun ch => ch != '%'))) = none) :
    parseLine? raw = none := by
  match rest with
  | [] =>
    apply parseLine?_of_short
    rw [h2]
    simp
  | s :: segs =>
    simp only [parseLine?]
    split
    · rfl
    · split
      · rename_i fname cov sg sgs heq
        rw [h2] at heq
        simp only [List.cons.injEq] at heq
        obtain ⟨hf', hc', hs', hsegs'⟩ := heq
        rw [← hc']
        simp [pyFloatExc, h3]
      · rfl

theorem find?_filter_ne (p q : String) (h : p ≠ q) (entries : List (String × FileData)) :
    (entries.filter (fun e => e.1 != p)).find? (fun e => e.1 == q) =
      entries.find? (fun e => e.1 == q) := by
  have hpq : (p == q) = false := beq_eq_false_iff_ne.mpr h
  have hqp : ¬(q = p) := fun e => h e.symm
  induction entries with
  | nil => rfl
  | cons e rest ih =>
    by_cases he : e.1 = p
    · have hq : (e.1 == q) = false := beq_eq_false_iff_ne.mpr (he ▸ h)
      simp [List.filter_cons, he, List.find?_cons, hq, hpq, ih]
    · have hne : (e.1 != p) = true := by simp [bne_iff_ne, he]
      by_cases hq : e.1 = q
      · simp [List.filter_cons, hne, List.find?_cons, hq, hqp]
      · have hq' : (e.1 == q) = false := beq_eq_false_iff_ne.mpr hq
        simp [List.filter_cons, hne, List.find?_cons, hq', ih]

theorem pathExists_write_ne (fs : FS) (p q : String) (d : FileData) (h : p ≠ q) :
    (fs.write p d).pathExists q = fs.pathExists q := by
  unfold FS.pathExists FS.lookup FS.write
  simp only [List.find?_cons, beq_eq_false_iff_ne.mpr h]
  rw [find?_filter_ne p q h]

theorem pathExists_write_write (fs : FS) (p1 p2 q : String) (d1 d2 : FileData)
    (h1 : p1 ≠ q) (h2 : p2 ≠ q) :
    ((fs.write p1 d1).write p2 d2).pathExists q = fs.pathExists q := by
  rw [pathExists_write_ne _ _ _ _ h2, pathExists_write_ne _ _ _ _ h1]

theorem reportHtml_ne_output (dir ts ext : String) :
    dir ++ "/report.html" ≠ dir ++ "/coverage-report-" ++ ts ++ ext := by
  intro h
  have hd := congrArg String.data h
  simp only [String.data_append] at hd
  rw [List.append_assoc, List.append_assoc] at hd
  have h2 := List.append_cancel_left hd
  simp only [List.cons_append] at h2
  injection h2 with ha h2
  injection h2 with hb h2
  exact absurd hb (by decide)

theorem parseLine?_fields (raw : List Char) (m : Module)
    (h : parseLine? raw = some m) :
    m.totalLines = (lineHitPairs ((splitPipe (pyStrip raw)).drop 2)).length ∧
    m.coveredLines = ((lineHitPairs ((splitPipe (pyStrip raw)).drop 2)).filter
      (fun p => decide (0 < p.hits))).length := by
  simp only [parseLine?] at h
  split at h
  · simp at h
  · split at h
    · rename_i fname cov sg sgs heq
      split at h
      · simp at h
      · rw [Option.some.injEq] at h
        subst h
        rw [heq]
        simp
    · simp at h

/-! ## The claims -/

/-- Claim C1: parsing the single input line `"foo.go | 75.5% | 1 1 2 0 3 1"`
yields exactly one module record with module `"foo.go"`, coverage `75.5`,
`totalLines = 3` (the number of parsed hit pairs) and `coveredLines = 2`
(the pairs whose hit count is strictly positive). -/
theorem C1_scenario_single_line :
    (parseReportTxt ["foo.go | 75.5% | 1 1 2 0 3 1".toList]).modules =
      [{ module := "foo.go".toList, coverage := 75.5, totalLines := 3,
         coveredLines := 2 }] := by
  simp [parseReportTxt, parseModules, parseLine?, pyStrip, splitPipe, headerRaCoCo,
    headerFilename, pyFloatExc, pyFloatCore, pyFloatMag?, pyMantissa?, decDigits?,
    digitsVal, lineHitPairs, segPairs, pySplitWs, pySplitWsAux, pairUp, parsePair?,
    pyIntExc, pyIntCore, sortCovDesc, insertDesc]
  norm_num

/-- Claim C2 (counterexample): the claim says hit-pair tokens of all segments
after the second are concatenated into one stream before pairing. On the line
`"foo.go | 10.0% | 1 0 2 | 3 0"` the code pairs within each segment —
pairs `(1,0)` and `(3,0)`, so `coveredLines = 0` — while the claimed
one-stream procedure pairs `(1,0)` and `(2,3)`, giving one covered line. -/
theorem C2_counterexample_per_segment_pairing :
    (parseLine? "foo.go | 10.0% | 1 0 2 | 3 0".toList).map Module.coveredLines =
      some 0 ∧
    ((lineHitPairsSpecStream
        ((splitPipe (pyStrip "foo.go | 10.0% | 1 0 2 | 3 0".toList)).drop 2)).filter
      (fun p => decide (0 < p.hits))).length = 1 := by
  constructor
  · simp [parseLine?, pyStrip, splitPipe, headerRaCoCo, headerFilename, pyFloatExc,
      pyFloatCore, pyFloatMag?, pyMantissa?, decDigits?, digitsVal, lineHitPairs,
      segPairs, pySplitWs, pySplitWsAux, pairUp, parsePair?, pyIntExc, pyIntCore]
  · simp [lineHitPairsSpecStream, pyStrip, splitPipe, pySplitWs, pySplitWsAux,
      pairUp, parsePair?, pyIntExc, pyIntCore, decDigits?, digitsVal]

/-- Claim C2 (amended): for every data line, each pipe-delimited segment
after the second is independently whitespace-tokenized and consumed two
tokens at a time within that segment (a trailing unpaired token of a segment
is dropped), the per-segment pair lists are concatenated in segment order,
and when either token of a candidate pair fails to parse as an integer that
pair is dropped while consumption continues with the next candidate pair,
never raising (`parseLineExc` returns `.ok`). -/
theorem C2_amended_segmentwise_pairs (raw : List Char) (m : Module)
    (h : parseLine? raw = some m) :
    parseLineExc raw = Except.ok (some m) ∧
    m.totalLines =
      ((((splitPipe (pyStrip raw)).drop 2).map
        (fun s => consumePairs (pySplitWs (pyStrip s)))).flatten).length ∧
    m.coveredLines =
      (((((splitPipe (pyStrip raw)).drop 2).map
        (fun s => consumePairs (pySplitWs (pyStrip s)))).flatten).filter
        (fun p => decide (0 < p.hits))).length := by
  have hf := parseLine?_fields raw m h
  rw [lineHitPairs_consume]
  exact ⟨by rw [parseLineExc_ok, h], hf.1, hf.2⟩

set_option maxHeartbeats 1000000 in
/-- Claim C2 (amended), witness: the amended statement applied to the
counterexample line. -/
theorem C2_amended_segmentwise_pairs_witness :
    parseLineExc "foo.go | 10.0% | 1 0 2 | 3 0".toList =
      Except.ok (some { module := "foo.go".toList, coverage := 10, totalLines := 2,
                        coveredLines := 0 }) ∧
    ({ module := "foo.go".toList, coverage := 10, totalLines := 2,
       coveredLines := 0 } : Module).totalLines =
      ((((splitPipe (pyStrip "foo.go | 10.0% | 1 0 2 | 3 0".toList)).drop 2).map
        (fun s => consumePairs (pySplitWs (pyStrip s)))).flatten).length ∧
    ({ module := "foo.go".toList, coverage := 10, totalLines := 2,
       coveredLines := 0 } : Module).coveredLines =
      (((((splitPipe (pyStrip "foo.go | 10.0% | 1 0 2 | 3 0".toList)).drop 2).map
        (fun s => consumePairs (pySplitWs (pyStrip s)))).flatten).filter
        (fun p => decide (0 < p.hits))).length :=
  C2_amended_segmentwise_pairs "foo.go | 10.0% | 1 0 2 | 3 0".toList _ (by
    simp [parseLine?, pyStrip, splitPipe, headerRaCoCo, headerFilename, pyFloatExc,
      pyFloatCore, pyFloatMag?, pyMantissa?, decDigits?, digitsVal, lineHitPairs,
      segPairs, pySplitWs, pySplitWsAux, pairUp, parsePair?, pyIntExc, pyIntCore])

/-- Claim C3: for every parsed report, `totalCoverage` equals
`coveredLines/totalLines*100` rounded to one decimal place when the
aggregate `totalLines` is positive and is exactly `0` when it is zero, and
the aggregate fields really are the sums over the module records, so the
division is only reached under the positivity guard. -/
theorem C3_totalCoverage_formula (lines : List (List Char)) :
    (parseReportTxt lines).totalCoverage =
      (if 0 < (parseReportTxt lines).totalLines then
        round1 (((parseReportTxt lines).coveredLines : ℚ) /
          ((parseReportTxt lines).totalLines : ℚ) * 100)
      else 0) ∧
    (parseReportTxt lines).totalLines =
      ((parseReportTxt lines).modules.map Module.totalLines).sum ∧
    (parseReportTxt lines).coveredLines =
      ((parseReportTxt lines).modules.map Module.coveredLines).sum := by
  refine ⟨rfl, ?_, ?_⟩
  · exact (((sortCovDesc_perm (parseModules lines)).map Module.totalLines).sum_eq).symm
  · exact (((sortCovDesc_perm (parseModules lines)).map Module.coveredLines).sum_eq).symm

/-- Claim C4: for every input, `coveredLines ≤ totalLines` holds in each
module record, and also for the report's aggregate sums. -/
theorem C4_covered_le_total (lines : List (List Char)) :
    (∀ m ∈ (parseReportTxt lines).modules, m.coveredLines ≤ m.totalLines) ∧
    (parseReportTxt lines).coveredLines ≤ (parseReportTxt lines).totalLines := by
  have hmem : ∀ m ∈ parseModules lines, m.coveredLines ≤ m.totalLines := by
    intro m hm
    simp only [parseModules] at hm
    rcases List.mem_filterMap.mp hm with ⟨raw, _, hp⟩
    exact parseLine?_covered_le raw m hp
  constructor
  · intro m hm
    exact hmem m ((sortCovDesc_perm (parseModules lines)).mem_iff.mp hm)
  · exact List.sum_le_sum hmem

/-- Claim C4, witness: the invariant instantiated on a concrete report. -/
theorem C4_covered_le_total_witness :
    ({ module := "m".toList, coverage := 1, totalLines := 1,
       coveredLines := 1 } : Module) ∈
        (parseReportTxt ["m | 1% | 1 1".toList]).modules ∧
    ({ module := "m".toList, coverage := 1, totalLines := 1,
       coveredLines := 1 } : Module).coveredLines ≤
      ({ module := "m".toList, coverage := 1, totalLines := 1,
         coveredLines := 1 } : Module).totalLines ∧
    (parseReportTxt ["m | 1% | 1 1".toList]).coveredLines ≤
      (parseReportTxt ["m | 1% | 1 1".toList]).totalLines :=
  ⟨by decide,
   (C4_covered_le_total ["m | 1% | 1 1".toList]).1 _ (by decide),
   (C4_covered_le_total ["m | 1% | 1 1".toList]).2⟩

set_option maxHeartbeats 1000000 in
/-- Claim C5: every parsed report's `modules` sequence is sorted descending
by coverage (adjacent pairs satisfy `a.coverage ≥ b.coverage`), modules with
equal coverage keep their original input order (the filter at any coverage
value is unchanged by the sort), and the input order `[B(50.0), A(90.0)]`
yields the output order `[A, B]`. -/
theorem C5_sorted_descending_stable (lines : List (List Char)) :
    ((parseReportTxt lines).modules.Chain' (fun a b => b.coverage ≤ a.coverage)) ∧
    (∀ c : ℚ, (parseReportTxt lines).modules.filter (fun m => decide (m.coverage = c)) =
      (parseModules lines).filter (fun m => decide (m.coverage = c))) ∧
    (parseReportTxt ["B.raku | 50.0% | 1 1".toList,
        "A.raku | 90.0% | 1 0".toList]).modules.map Module.module =
      ["A.raku".toList, "B.raku".toList] := by
  refine ⟨(sortCovDesc_pairwise (parseModules lines)).chain', ?_, ?_⟩
  · intro c
    exact sortCovDesc_filter (parseModules lines) c
  · simp [parseReportTxt, parseModules, parseLine?, pyStrip, splitPipe, headerRaCoCo,
      headerFilename, pyFloatExc, pyFloatCore, pyFloatMag?, pyMantissa?, decDigits?,
      digitsVal, lineHitPairs, segPairs, pySplitWs, pySplitWsAux, pairUp, parsePair?,
      pyIntExc, pyIntCore]
    norm_num [sortCovDesc, insertDesc]

set_option maxHeartbeats 1000000 in
/-- Claim C6: malformed rows are skipped without aborting the parse — a line
with fewer than 3 pipe-delimited fields yields no record, a line whose
percentage field fails to parse as a float yields no record, and one
well-formed line next to one 2-field line yields exactly one module record. -/
theorem C6_malformed_rows_skipped (raw rawp f c : List Char)
    (rest : List (List Char))
    (h1 : (splitPipe (pyStrip raw)).length < 3)
    (h2 : splitPipe (pyStrip rawp) = f :: c :: rest)
    (h3 : pyFloatCore (pyStrip (c.filter (fun ch => ch != '%'))) = none) :
    parseLine? raw = none ∧ parseLine? rawp = none ∧
    (parseReportTxt ["foo.go | 75.5% | 1 1 2 0 3 1".toList,
      "bar.go | 50.0%".toList]).modules.length = 1 := by
  refine ⟨parseLine?_of_short raw h1,
    parseLine?_of_bad_percentage rawp f c rest h2 h3, ?_⟩
  simp [parseReportTxt, parseModules, parseLine?, pyStrip, splitPipe, headerRaCoCo,
    headerFilename, pyFloatExc, pyFloatCore, pyFloatMag?, pyMantissa?, decDigits?,
    digitsVal, lineHitPairs, segPairs, pySplitWs, pySplitWsAux, pairUp, parsePair?,
    pyIntExc, pyIntCore, sortCovDesc, insertDesc]

/-- Claim C6, witness: a 1-field line, a line with an unparsable percentage,
and the two-line scenario. -/
theorem C6_malformed_rows_skipped_witness :
    parseLine? "garbage".toList = none ∧
    parseLine? "foo | abc% | 1 1".toList = none ∧
    (parseReportTxt ["foo.go | 75.5% | 1 1 2 0 3 1".toList,
      "bar.go | 50.0%".toList]).modules.length = 1 :=
  C6_malformed_rows_skipped "garbage".toList "foo | abc% | 1 1".toList
    "foo".toList "abc%".toList ["1 1".toList] (by decide) (by decide) (by decide)

/-- Claim C7: when the required textual report path does not exist, the run
fails — the missing-input diagnostic (the realisation of the spec's
`MissingInputError`) goes to the error stream, the exit code is non-zero,
and neither the filesystem nor the event trace records any output file. -/
theorem C7_missing_input_aborts (dir ts iso : String) (fs : FS)
    (h : fs.pathExists (dir ++ "/report.txt") = false) :
    runMain dir ts iso fs =
      { exitCode := 1, fs := fs, events := [], stdout := [],
        stderr := ["Error: " ++ (dir ++ "/report.txt") ++ " not found"] } := by
  simp [runMain, h]

/-- Claim C7, witness: the empty filesystem. -/
theorem C7_missing_input_aborts_witness :
    runMain "coverage-report" "2024-01-01-0000" "iso" ⟨[]⟩ =
      { exitCode := 1, fs := ⟨[]⟩, events := [], stdout := [],
        stderr := ["Error: " ++ ("coverage-report" ++ "/report.txt") ++
          " not found"] } :=
  C7_missing_input_aborts "coverage-report" "2024-01-01-0000" "iso" ⟨[]⟩ (by decide)

/-- Claim C8: on the success path the event trace is — write JSON, write
Markdown, then (only if the rendered document exists) copy it to its
timestamped name followed by removing the original, and finally remove the
textual report. So the report is removed only after both writes, the copy
precedes the removal of the rendered document, and when the latter is
absent the copy-and-remove step is skipped with no error. -/
theorem C8_archive_order (dir ts iso : String) (fs : FS)
    (h : fs.pathExists (dir ++ "/report.txt") = true) :
    (runMain dir ts iso fs).exitCode = 0 ∧
    (runMain dir ts iso fs).stderr = [] ∧
    (runMain dir ts iso fs).events =
      [Event.writeFile (dir ++ "/coverage-report-" ++ ts ++ ".json"),
       Event.writeFile (dir ++ "/coverage-report-" ++ ts ++ ".md")] ++
      (if fs.pathExists (dir ++ "/report.html") then
        [Event.copyFile (dir ++ "/report.html")
           (dir ++ "/coverage-report-" ++ ts ++ ".html"),
         Event.removeFile (dir ++ "/report.html")]
       else []) ++
      [Event.removeFile (dir ++ "/report.txt")] := by
  have hw : ∀ d1 d2 : FileData,
      ((fs.write (dir ++ "/coverage-report-" ++ ts ++ ".json") d1).write
        (dir ++ "/coverage-report-" ++ ts ++ ".md") d2).pathExists
          (dir ++ "/report.html") = fs.pathExists (dir ++ "/report.html") :=
    fun d1 d2 =>
      pathExists_write_write fs _ _ _ d1 d2
        (Ne.symm (reportHtml_ne_output dir ts ".json"))
        (Ne.symm (reportHtml_ne_output dir ts ".md"))
  refine ⟨?_, ?_, ?_⟩ <;> simp [runMain, h, hw]

/-- Claim C8, witness: a filesystem holding both the textual report and the
rendered document. -/
theorem C8_archive_order_witness :
    (runMain "d" "t" "iso"
      ⟨[("d/report.txt", .text []), ("d/report.html", .text [])]⟩).exitCode = 0 ∧
    (runMain "d" "t" "iso"
      ⟨[("d/report.txt", .text []), ("d/report.html", .text [])]⟩).stderr = [] ∧
    (runMain "d" "t" "iso"
      ⟨[("d/report.txt", .text []), ("d/report.html", .text [])]⟩).events =
      [Event.writeFile ("d" ++ "/coverage-report-" ++ "t" ++ ".json"),
       Event.writeFile ("d" ++ "/coverage-report-" ++ "t" ++ ".md")] ++
      (if FS.pathExists ⟨[("d/report.txt", .text []), ("d/report.html", .text [])]⟩
          ("d" ++ "/report.html") then
        [Event.copyFile ("d" ++ "/report.html")
           ("d" ++ "/coverage-report-" ++ "t" ++ ".html"),
         Event.removeFile ("d" ++ "/report.html")]
       else []) ++
      [Event.removeFile ("d" ++ "/report.txt")] :=
  C8_archive_order "d" "t" "iso"
    ⟨[("d/report.txt", .text []), ("d/report.html", .text [])]⟩ (by decide)

/-- Claim C9: the field delimiter is the exact three-character sequence
space-pipe-space; a line in which it never occurs splits into fewer than 3
fields and yields no module record. -/
theorem C9_exact_delimiter (raw : List Char)
    (h : containsSep (pyStrip raw) = false) :
    (splitPipe (pyStrip raw)).length < 3 ∧ parseLine? raw = none := by
  have hs := splitPipe_of_not_containsSep (pyStrip raw) h
  constructor
  · rw [hs]
    norm_num
  · exact parseLine?_of_short raw (by rw [hs]; norm_num)

/-- Claim C9, witness: a line whose pipes have no surrounding spaces. -/
theorem C9_exact_delimiter_witness :
    (splitPipe (pyStrip "a.go|75.5%|1 1".toList)).length < 3 ∧
    parseLine? "a.go|75.5%|1 1".toList = none :=
  C9_exact_delimiter "a.go|75.5%|1 1".toList (by decide)

/-- Claim C10: the parser is total over file contents — evaluating
`parse_report_txt` with the exception flow explicit never produces an
escaping exception and always returns the complete report of the pure
model, for every sequence of text lines. -/
theorem C10_parser_never_raises (lines : List (List Char)) :
    parseReportTxtExc lines = Except.ok (parseReportTxt lines) :=
  parseReportTxtExc_ok lines

end CoverageTool
